import Mathlib

/-!
Verification of the SOME/IP test-service lifecycle manager
(`someip-test-service-sys/cpp/service`), embedded shallowly.

The external CommonAPI runtime is modelled by oracles: a function
`Nat → Bool` giving the result of the n-th attempt of each retried
operation.  Each runtime interaction is recorded as an `Event`, so the
theorems speak about the exact sequence of calls a transition issues.
The C++ `while` loops retry without bound; they are embedded as fueled
loops returning `Option` (`none` = the fuel ran out before the oracle
ever answered success, i.e. the C++ loop would still be spinning).
-/

namespace TestService

/-- A single observable interaction with the external CommonAPI runtime,
as issued by `Manager` in `manager.hpp`.  `sleep` records the waiting
interval in milliseconds (`std::this_thread::sleep_for(RETRY_TIMEOUT)`). -/
inductive Event where
  | registerService (domain inst connection : String) (handle : Nat) (ok : Bool)
  | unregisterService (domain iface inst : String) (ok : Bool)
  | buildProxy (domain inst connection : String)
  | isAvailable (result : Bool)
  | sleep (ms : Nat)
  deriving DecidableEq, Repr

/-- Constant `SOMEIP_GEN_LIBRARY_NAME_BASE` from `manager.hpp`. -/
def SOMEIP_GEN_LIBRARY_NAME_BASE : String := "someip-test-service"

/-- Constant `RETRY_TIMEOUT` from `manager.hpp` (`std::chrono::milliseconds(100)`). -/
def RETRY_TIMEOUT : Nat := 100

/-- Constant `SERVICE_DOMAIN` from `manager.hpp`. -/
def SERVICE_DOMAIN : String := "local"

/-- Constant `SERVICE_INSTANCE` from `manager.hpp`. -/
def SERVICE_INSTANCE : String := "test.TestService"

/-- Constant `SERVICE_INTERFACE` from `manager.hpp`. -/
def SERVICE_INTERFACE : String := "test.TestService:v0_1"

/-- Constant `SERVICE_CONNECTION` from `manager.hpp`. -/
def SERVICE_CONNECTION : String := "test-service"

/-- Structure `Manager::Meta`: the four identity strings.  The C++ fields are
`domain`, `instance`, `interface`, `connection`; `instance` and
`interface` are reserved words in Lean, so they appear as `inst` and
`iface`, in the same order as in the source. -/
structure Meta where
  domain : String
  inst : String
  iface : String
  connection : String
  deriving DecidableEq, Repr

/-- Structure `Manager::Service`: identity plus the stub handle.  The
`std::shared_ptr<TestServiceStubImpl>` is modelled by a numeric handle
identifying the freshly allocated stub object. -/
structure Service where
  meta : Meta
  handle : Nat
  deriving DecidableEq, Repr

/-- Method `Manager::create_service`: builds the fixed identity and a fresh
stub handle (`std::make_shared<TestServiceStubImpl>()`), the fresh
allocation being represented by the `freshHandle` parameter. -/
def create_service (freshHandle : Nat) : Service :=
  { meta := { domain := SERVICE_DOMAIN, inst := SERVICE_INSTANCE,
              iface := SERVICE_INTERFACE, connection := SERVICE_CONNECTION },
    handle := freshHandle }

/-- The event of one `runtime->registerService(domain, instance,
service.handle, connection)` call, as issued by
`Manager::register_service` after destructuring `service.meta` as
`[domain, instance, _, connection]`. -/
def registerAttempt (service : Service) (ok : Bool) : Event :=
  .registerService service.meta.domain service.meta.inst
    service.meta.connection service.handle ok

/-- The event of one `runtime->unregisterService(domain, interface,
instance)` call, as issued by `Manager::unregister_service` after
destructuring `service.meta` as `[domain, instance, interface, _]`. -/
def unregisterAttempt (service : Service) (ok : Bool) : Event :=
  .unregisterService service.meta.domain service.meta.iface
    service.meta.inst ok

/-- The loop of `Manager::register_service`:
`while (!runtime->registerService(domain, instance, service.handle, connection))
 { LOG(...); sleep(); }`.
`results i` is the runtime's answer to the i-th attempt; `fuel` bounds
how many attempts we unfold (the C++ loop is unbounded). -/
def register_loop (service : Service) (results : Nat → Bool) :
    Nat → Nat → Option (List Event)
  | _, 0 => none
  | i, fuel + 1 =>
    if results i then
      some [registerAttempt service true]
    else
      match register_loop service results (i + 1) fuel with
      | none => none
      | some rest =>
        some (registerAttempt service false :: .sleep RETRY_TIMEOUT :: rest)

/-- Method `Manager::register_service` (manager.hpp lines 122-130): destructures
`service.meta` as `[domain, instance, _, connection]` and retries
`registerService(domain, instance, service.handle, connection)` until it
succeeds, sleeping `RETRY_TIMEOUT` between attempts. -/
def register_service (service : Service) (results : Nat → Bool) (fuel : Nat) :
    Option (List Event) :=
  register_loop service results 0 fuel

/-- The loop of `Manager::unregister_service`:
`while (!runtime->unregisterService(domain, interface, instance))
 { LOG(...); sleep(); }` where the destructuring is
`[domain, instance, interface, _]`. -/
def unregister_loop (service : Service) (results : Nat → Bool) :
    Nat → Nat → Option (List Event)
  | _, 0 => none
  | i, fuel + 1 =>
    if results i then
      some [unregisterAttempt service true]
    else
      match unregister_loop service results (i + 1) fuel with
      | none => none
      | some rest =>
        some (unregisterAttempt service false :: .sleep RETRY_TIMEOUT :: rest)

/-- Method `Manager::unregister_service` (manager.hpp lines 132-140). -/
def unregister_service (service : Service) (results : Nat → Bool) (fuel : Nat) :
    Option (List Event) :=
  unregister_loop service results 0 fuel

/-- The poll loop of `Manager::wait_service`:
`while (proxy->isAvailable() != to_be_available) { sleep(); }`.
`avail i` is the probe's answer to the i-th poll. -/
def wait_loop (to_be_available : Bool) (avail : Nat → Bool) :
    Nat → Nat → Option (List Event)
  | _, 0 => none
  | i, fuel + 1 =>
    if avail i = to_be_available then
      some [.isAvailable (avail i)]
    else
      match wait_loop to_be_available avail (i + 1) fuel with
      | none => none
      | some rest => some (.isAvailable (avail i) :: .sleep RETRY_TIMEOUT :: rest)

/-- Method `Manager::wait_service` (manager.hpp lines 145-153): builds a proxy
from `[domain, instance, _, connection]` and polls `isAvailable()` until
it equals `to_be_available`, sleeping between polls. -/
def wait_service (service : Service) (to_be_available : Bool)
    (avail : Nat → Bool) (fuel : Nat) : Option (List Event) :=
  match wait_loop to_be_available avail 0 fuel with
  | none => none
  | some tr =>
    some (.buildProxy service.meta.domain service.meta.inst
            service.meta.connection :: tr)

/-- Method `Manager::launch_test_service` (manager.hpp lines 75-87).  The
manager state is its single field `running_service : Option Service`.
If a service is already running the call is a no-op with an empty event
trace; otherwise it creates the service, registers it (retrying),
waits for availability and only then stores the handle. -/
def launch_test_service (running_service : Option Service) (freshHandle : Nat)
    (regResults availResults : Nat → Bool) (fuel : Nat) :
    Option (Option Service × List Event) :=
  match running_service with
  | some _ => some (running_service, [])
  | none =>
    let service := create_service freshHandle
    match register_service service regResults fuel with
    | none => none
    | some regTr =>
      match wait_service service true availResults fuel with
      | none => none
      | some waitTr => some (some service, regTr ++ waitTr)

/-- Method `Manager::terminate_test_service` (manager.hpp lines 89-99).  No-op
with an empty trace when nothing is running; otherwise unregisters
(retrying), waits for unavailability, then resets the slot. -/
def terminate_test_service (running_service : Option Service)
    (unregResults availResults : Nat → Bool) (fuel : Nat) :
    Option (Option Service × List Event) :=
  match running_service with
  | none => some (running_service, [])
  | some service =>
    match unregister_service service unregResults fuel with
    | none => none
    | some unregTr =>
      match wait_service service false availResults fuel with
      | none => none
      | some waitTr => some (none, unregTr ++ waitTr)

/-- The spec's `LifecycleState`: `Stopped` or `Running`. -/
inductive LifecycleState where
  | Stopped
  | Running
  deriving DecidableEq, Repr

/-- The lifecycle state the spec abstracts from the manager's slot:
`Running` exactly when `running_service.has_value()`. -/
def lifecycleState : Option Service → LifecycleState
  | none => .Stopped
  | some _ => .Running

/-- Event classifiers used to count runtime calls in a trace. -/
def Event.isRegisterCall : Event → Bool
  | .registerService _ _ _ _ _ => true
  | _ => false

def Event.isUnregisterCall : Event → Bool
  | .unregisterService _ _ _ _ => true
  | _ => false

def Event.isAvailPoll : Event → Bool
  | .isAvailable _ => true
  | _ => false

def Event.isSleepEvent : Event → Bool
  | .sleep _ => true
  | _ => false

def Event.isProxyBuild : Event → Bool
  | .buildProxy _ _ _ => true
  | _ => false

/-- A registration call carrying exactly the service's domain,
instance and connection fields plus its stub handle. -/
def Event.routesRegisterIdentity : Event → Service → Bool
  | Event.registerService d i c h _, s =>
    decide (d = s.meta.domain ∧ i = s.meta.inst ∧
      c = s.meta.connection ∧ h = s.handle)
  | _, _ => false

/-- An unregistration call carrying exactly the service's domain,
interface and instance fields. -/
def Event.routesUnregisterIdentity : Event → Service → Bool
  | Event.unregisterService d f i _, s =>
    decide (d = s.meta.domain ∧ f = s.meta.iface ∧ i = s.meta.inst)
  | _, _ => false

/-- A proxy construction carrying exactly the service's domain,
instance and connection fields. -/
def Event.routesProxyIdentity : Event → Service → Bool
  | Event.buildProxy d i c, s =>
    decide (d = s.meta.domain ∧ i = s.meta.inst ∧ c = s.meta.connection)
  | _, _ => false

/-- The states the manager can reach from its initial state
(`Manager() : running_service(std::nullopt)`) by completed
`launch_test_service` / `terminate_test_service` calls. -/
inductive Reachable : Option Service → Prop where
  | init : Reachable none
  | step_launch {st fh ro ao fuel st' tr} : Reachable st →
      launch_test_service st fh ro ao fuel = some (st', tr) → Reachable st'
  | step_terminate {st uo ao fuel st' tr} : Reachable st →
      terminate_test_service st uo ao fuel = some (st', tr) → Reachable st'

/-! ### utils.hpp : method_name -/

/-- Value `std::string::npos` on a 64-bit platform (`size_t(-1)`). -/
def npos : Nat := 2 ^ 64 - 1

/-- Operation `std::string::find(pat)`: the smallest index at which `pat` occurs
in `s`, if any. -/
def findSubstr (s pat : List Char) : Option Nat :=
  (List.range (s.length + 1)).find? (fun i => pat.isPrefixOf (s.drop i))

/-- Operation `std::string::rfind(pat)`: the largest index at which `pat` occurs
in `s`, if any. -/
def rfindSubstr (s pat : List Char) : Option Nat :=
  (List.range (s.length + 1)).reverse.find? (fun i => pat.isPrefixOf (s.drop i))

/-- Search `find` with the C++ return convention: `npos` when absent. -/
def cppFind (s pat : List Char) : Nat := (findSubstr s pat).getD npos

/-- Search `rfind` with the C++ return convention: `npos` when absent. -/
def cppRfind (s pat : List Char) : Nat := (rfindSubstr s pat).getD npos

/-- Operation `std::string::substr(pos, count)`: `count` characters from `pos`,
clamped to the end of the string. -/
def cppSubstr (s : List Char) (pos count : Nat) : List Char :=
  (s.drop pos).take count

/-- Function `method_name` from `utils.hpp` (lines 19-24), with `size_t`
arithmetic made explicit: `rfind + 1` and `rfind("(") - begin` are
unsigned operations modulo 2^64. -/
def method_name (prettyFunction : List Char) : List Char :=
  let colons := cppFind prettyFunction "::".toList
  let begin_ :=
    (cppRfind (cppSubstr prettyFunction 0 colons) " ".toList + 1) % (npos + 1)
  let end_ :=
    (cppRfind prettyFunction "(".toList + (npos + 1) - begin_) % (npos + 1)
  cppSubstr prettyFunction begin_ end_ ++ "()".toList

/-! ### service.hpp : the echo stub -/

/-- Modelled from the spec: the generated
`v0::test::TestService::AllPrimitiveDataTypes` aggregate (the
IDL-generated headers are not part of this repository); per the spec it
is a fixed-field aggregate of all the primitive types.  Signed integers
are modelled as `Int`, unsigned ones as `Nat`, both 32- and 64-bit
floating point as `Float`. -/
structure AllPrimitiveDataTypes where
  boolValue : Bool
  int8Value : Int
  int16Value : Int
  int32Value : Int
  int64Value : Int
  uint8Value : Nat
  uint16Value : Nat
  uint32Value : Nat
  uint64Value : Nat
  floatValue : Float
  doubleValue : Float

/-- Result of the one fire-and-forget operation: it has no reply
channel, and its only effect is a log line carrying the input. -/
structure FireAndForgetOutcome where
  reply : Option Nat
  logged : List Nat
  deriving DecidableEq, Repr

/- Class `TestServiceStubImpl` (service.hpp): every two-way operation passes
its input to `_reply` unchanged; the reply value is the function's
result.  The unused `ClientId` argument is modelled as a `Nat`. -/
namespace TestServiceStubImpl

def test_bool (_client : Nat) (flag : Bool) : Bool := flag

def test_int8 (_client : Nat) (param : Int) : Int := param

def test_int16 (_client : Nat) (param : Int) : Int := param

def test_int32 (_client : Nat) (param : Int) : Int := param

def test_int64 (_client : Nat) (param : Int) : Int := param

def test_uint8 (_client : Nat) (param : Nat) : Nat := param

def test_uint16 (_client : Nat) (param : Nat) : Nat := param

def test_uint32 (_client : Nat) (param : Nat) : Nat := param

def test_uint64 (_client : Nat) (param : Nat) : Nat := param

def test_double (_client : Nat) (param : Float) : Float := param

def test_float (_client : Nat) (param : Float) : Float := param

def test_struct (_client : Nat) (request : AllPrimitiveDataTypes) :
    AllPrimitiveDataTypes := request

def test_utf16le_dynamic_length_string (_client : Nat) (param : String) :
    String := param

def test_utf16be_dynamic_length_string (_client : Nat) (param : String) :
    String := param

def test_utf8_dynamic_length_string (_client : Nat) (param : String) :
    String := param

def test_utf16le_fixed_length_string (_client : Nat) (param : String) :
    String := param

def test_utf16be_fixed_length_string (_client : Nat) (param : String) :
    String := param

def test_utf8_fixed_length_string (_client : Nat) (param : String) :
    String := param

/-- Method `test_fire_and_forget_uint64` (service.hpp lines 141-144): no
`_reply` parameter at all; the body only logs `_param`. -/
def test_fire_and_forget_uint64 (_client : Nat) (param : Nat) :
    FireAndForgetOutcome :=
  { reply := none, logged := [param] }

def test_fixed_length_array (_client : Nat) (param : List Nat) :
    List Nat := param

def test_dynamic_length_1_byte_array (_client : Nat) (param : List Nat) :
    List Nat := param

def test_dynamic_length_2_bytes_array (_client : Nat) (param : List Nat) :
    List Nat := param

def test_dynamic_length_4_bytes_array (_client : Nat) (param : List Nat) :
    List Nat := param

end TestServiceStubImpl

/-! ### lib.cpp : the process-wide mutex

`launch()` and `terminate()` in lib.cpp each hold
`test_service_manager_mutex` (via `std::lock_guard`) for the whole call
into the manager.  We model a two-thread interleaving semantics: each
thread's program is `lock`, then the transition's events, then
`unlock`; a scheduler chooses at every step which thread attempts its
next action, and an attempt to `lock` while the mutex is held blocks
(leaves the system unchanged). -/

/-- One atomic action of a thread in the lib.cpp wrapper. -/
inductive Action where
  | lock
  | unlock
  | work (e : Event)
  deriving DecidableEq, Repr

/-- The program a lib.cpp entry point runs: take the mutex, issue the
transition's events, release the mutex. -/
def callProg (tr : List Event) : List Action :=
  Action.lock :: tr.map Action.work ++ [Action.unlock]

/-- Global state of the two-thread system: the mutex owner (`true` /
`false` name the threads), the remaining program of each thread, and
the events issued so far. -/
structure SysState where
  owner : Option Bool
  progA : List Action
  progB : List Action
  trace : List Event
  deriving DecidableEq, Repr

/-- Replaces thread `t`'s remaining program. -/
def setProg (s : SysState) (t : Bool) (p : List Action) : SysState :=
  if t then { s with progA := p } else { s with progB := p }

/-- Thread `t` attempts its next action.  `lock` succeeds only while
the mutex is free (otherwise the thread blocks and the state is
unchanged); `unlock` frees the mutex; `work e` appends `e` to the
global trace.  A finished thread does nothing. -/
def stepThread (s : SysState) (t : Bool) : SysState :=
  match (if t then s.progA else s.progB) with
  | [] => s
  | Action.lock :: rest =>
    if s.owner = none then { setProg s t rest with owner := some t } else s
  | Action.unlock :: rest => { setProg s t rest with owner := none }
  | Action.work e :: rest => { setProg s t rest with trace := s.trace ++ [e] }

/-- Runs a schedule: at each step the scheduler names the thread that
attempts its next action. -/
def run (s : SysState) (sched : List Bool) : SysState :=
  sched.foldl stepThread s

/-- The initial state for two concurrent lib.cpp calls whose transition
event traces are `tA` and `tB`. -/
def initState (tA tB : List Event) : SysState :=
  { owner := none, progA := callProg tA, progB := callProg tB, trace := [] }

/-- A trace some completed `launch_test_service` or
`terminate_test_service` call can issue. -/
def IsTransitionTrace (tr : List Event) : Prop :=
  (∃ st fh ro ao fuel st',
     launch_test_service st fh ro ao fuel = some (st', tr)) ∨
  (∃ st uo ao fuel st',
     terminate_test_service st uo ao fuel = some (st', tr))

/-- The trace a retry loop produces when its operation fails exactly
`K` times and then succeeds: `K` failed attempts each followed by one
fixed-interval sleep, then the successful attempt. -/
def retryPattern (attempt : Bool → Event) : Nat → List Event
  | 0 => [attempt true]
  | k + 1 => attempt false :: .sleep RETRY_TIMEOUT :: retryPattern attempt k

/-- The poll part of the trace `wait_service` produces when the probe
reports the non-target value exactly `K` times before reporting the
target value. -/
def pollPattern (to_be_available : Bool) : Nat → List Event
  | 0 => [.isAvailable to_be_available]
  | k + 1 =>
    .isAvailable (!to_be_available) :: .sleep RETRY_TIMEOUT ::
      pollPattern to_be_available k

/-- Invariant of the two-thread mutex system: each thread is either
still before its `lock`, inside the critical section with a prefix of
its transition already issued, or finished; the mutex owner is exactly
the thread inside its critical section, and the global trace is the
completed blocks in completion order followed by the in-progress
prefix.  Disjuncts: both idle / A inside / A done, B idle / A done,
B inside / both done A first — and the four mirror images with the
roles of the threads swapped. -/
def Inv (tA tB : List Event) (s : SysState) : Prop :=
  (s.owner = none ∧ s.progA = callProg tA ∧ s.progB = callProg tB ∧
     s.trace = []) ∨
  (∃ pre rest, tA = pre ++ rest ∧ s.owner = some true ∧
     s.progA = rest.map Action.work ++ [Action.unlock] ∧
     s.progB = callProg tB ∧ s.trace = pre) ∨
  (s.owner = none ∧ s.progA = [] ∧ s.progB = callProg tB ∧
     s.trace = tA) ∨
  (∃ pre rest, tB = pre ++ rest ∧ s.owner = some false ∧
     s.progA = [] ∧ s.progB = rest.map Action.work ++ [Action.unlock] ∧
     s.trace = tA ++ pre) ∨
  (s.owner = none ∧ s.progA = [] ∧ s.progB = [] ∧ s.trace = tA ++ tB) ∨
  (∃ pre rest, tB = pre ++ rest ∧ s.owner = some false ∧
     s.progA = callProg tA ∧
     s.progB = rest.map Action.work ++ [Action.unlock] ∧ s.trace = pre) ∨
  (s.owner = none ∧ s.progA = callProg tA ∧ s.progB = [] ∧
     s.trace = tB) ∨
  (∃ pre rest, tA = pre ++ rest ∧ s.owner = some true ∧
     s.progA = rest.map Action.work ++ [Action.unlock] ∧
     s.progB = [] ∧ s.trace = tB ++ pre) ∨
  (s.owner = none ∧ s.progA = [] ∧ s.progB = [] ∧ s.trace = tB ++ tA)

end TestService

/-! ## Supporting lemmas about the retry and poll loops -/

namespace TestService

/-- Any successful run of the register retry loop is a list of failed
attempts and sleeps ending in one successful attempt. -/
theorem register_loop_decomp (service : Service) (results : Nat → Bool) :
    ∀ fuel i tr, register_loop service results i fuel = some tr →
      ∃ pre, tr = pre ++ [registerAttempt service true] ∧
        ∀ e ∈ pre, e = registerAttempt service false ∨
          e = Event.sleep RETRY_TIMEOUT := by
  intro fuel
  induction fuel with
  | zero => intro i tr h; simp [register_loop] at h
  | succ fuel ih =>
    intro i tr h
    by_cases hr : results i = true
    · simp only [register_loop, hr, if_true, Option.some.injEq] at h
      exact ⟨[], by simp [← h], by simp⟩
    · simp only [register_loop, hr, if_false, Bool.false_eq_true] at h
      cases hrec : register_loop service results (i + 1) fuel with
      | none => rw [hrec] at h; exact absurd h (by simp)
      | some rest =>
        rw [hrec] at h
        simp only [Option.some.injEq] at h
        obtain ⟨pre, hpre, hmem⟩ := ih (i + 1) rest hrec
        refine ⟨registerAttempt service false :: Event.sleep RETRY_TIMEOUT :: pre,
          by simp [← h, hpre], ?_⟩
        intro e he
        rcases List.mem_cons.mp he with rfl | he
        · exact Or.inl rfl
        · rcases List.mem_cons.mp he with rfl | he
          · exact Or.inr rfl
          · exact hmem e he

/-- Any successful run of the unregister retry loop is a list of failed
attempts and sleeps ending in one successful attempt. -/
theorem unregister_loop_decomp (service : Service) (results : Nat → Bool) :
    ∀ fuel i tr, unregister_loop service results i fuel = some tr →
      ∃ pre, tr = pre ++ [unregisterAttempt service true] ∧
        ∀ e ∈ pre, e = unregisterAttempt service false ∨
          e = Event.sleep RETRY_TIMEOUT := by
  intro fuel
  induction fuel with
  | zero => intro i tr h; simp [unregister_loop] at h
  | succ fuel ih =>
    intro i tr h
    by_cases hr : results i = true
    · simp only [unregister_loop, hr, if_true, Option.some.injEq] at h
      exact ⟨[], by simp [← h], by simp⟩
    · simp only [unregister_loop, hr, if_false, Bool.false_eq_true] at h
      cases hrec : unregister_loop service results (i + 1) fuel with
      | none => rw [hrec] at h; exact absurd h (by simp)
      | some rest =>
        rw [hrec] at h
        simp only [Option.some.injEq] at h
        obtain ⟨pre, hpre, hmem⟩ := ih (i + 1) rest hrec
        refine ⟨unregisterAttempt service false :: Event.sleep RETRY_TIMEOUT :: pre,
          by simp [← h, hpre], ?_⟩
        intro e he
        rcases List.mem_cons.mp he with rfl | he
        · exact Or.inl rfl
        · rcases List.mem_cons.mp he with rfl | he
          · exact Or.inr rfl
          · exact hmem e he

/-- Any successful run of the availability poll loop is a list of
non-target polls and sleeps ending in the first poll that reports the
target value. -/
theorem wait_loop_decomp (to_be_available : Bool) (avail : Nat → Bool) :
    ∀ fuel i tr, wait_loop to_be_available avail i fuel = some tr →
      ∃ pre, tr = pre ++ [Event.isAvailable to_be_available] ∧
        ∀ e ∈ pre, e = Event.isAvailable (!to_be_available) ∨
          e = Event.sleep RETRY_TIMEOUT := by
  intro fuel
  induction fuel with
  | zero => intro i tr h; simp [wait_loop] at h
  | succ fuel ih =>
    intro i tr h
    by_cases hr : avail i = to_be_available
    · simp only [wait_loop, hr, if_true, Option.some.injEq] at h
      exact ⟨[], by simp [← h], by simp⟩
    · have hne : avail i = !to_be_available := by
        cases hv : avail i <;> cases ht : to_be_available <;>
          simp_all
      simp only [wait_loop, hr, if_false] at h
      cases hrec : wait_loop to_be_available avail (i + 1) fuel with
      | none => rw [hrec] at h; exact absurd h (by simp)
      | some rest =>
        rw [hrec] at h
        simp only [Option.some.injEq] at h
        obtain ⟨pre, hpre, hmem⟩ := ih (i + 1) rest hrec
        refine ⟨Event.isAvailable (avail i) :: Event.sleep RETRY_TIMEOUT :: pre,
          by simp [← h, hpre], ?_⟩
        intro e he
        rcases List.mem_cons.mp he with rfl | he
        · exact Or.inl (by rw [hne])
        · rcases List.mem_cons.mp he with rfl | he
          · exact Or.inr rfl
          · exact hmem e he

end TestService

namespace TestService

/-- When the runtime fails exactly `K` times and then accepts the
registration, the register loop produces exactly the alternating
fail/sleep pattern ending in the successful attempt. -/
theorem register_loop_pattern (service : Service) (results : Nat → Bool) :
    ∀ K i fuel, (∀ j, j < K → results (i + j) = false) →
      results (i + K) = true → K < fuel →
      register_loop service results i fuel =
        some (retryPattern (registerAttempt service) K) := by
  intro K
  induction K with
  | zero =>
    intro i fuel _ hK hfuel
    cases fuel with
    | zero => omega
    | succ fuel =>
      have h0 : results i = true := by simpa using hK
      simp [register_loop, h0, retryPattern]
  | succ K ih =>
    intro i fuel hlt hK hfuel
    cases fuel with
    | zero => omega
    | succ fuel =>
      have h0 : results i = false := by simpa using hlt 0 (Nat.succ_pos K)
      have hrec : register_loop service results (i + 1) fuel =
          some (retryPattern (registerAttempt service) K) := by
        refine ih (i + 1) fuel (fun j hj => ?_) ?_ (by omega)
        · have := hlt (j + 1) (by omega)
          rwa [show i + (j + 1) = i + 1 + j by omega] at this
        · rwa [show i + (K + 1) = i + 1 + K by omega] at hK
      simp [register_loop, h0, hrec, retryPattern]

/-- When the runtime fails exactly `K` times and then accepts the
unregistration, the unregister loop produces exactly the alternating
fail/sleep pattern ending in the successful attempt. -/
theorem unregister_loop_pattern (service : Service) (results : Nat → Bool) :
    ∀ K i fuel, (∀ j, j < K → results (i + j) = false) →
      results (i + K) = true → K < fuel →
      unregister_loop service results i fuel =
        some (retryPattern (unregisterAttempt service) K) := by
  intro K
  induction K with
  | zero =>
    intro i fuel _ hK hfuel
    cases fuel with
    | zero => omega
    | succ fuel =>
      have h0 : results i = true := by simpa using hK
      simp [unregister_loop, h0, retryPattern]
  | succ K ih =>
    intro i fuel hlt hK hfuel
    cases fuel with
    | zero => omega
    | succ fuel =>
      have h0 : results i = false := by simpa using hlt 0 (Nat.succ_pos K)
      have hrec : unregister_loop service results (i + 1) fuel =
          some (retryPattern (unregisterAttempt service) K) := by
        refine ih (i + 1) fuel (fun j hj => ?_) ?_ (by omega)
        · have := hlt (j + 1) (by omega)
          rwa [show i + (j + 1) = i + 1 + j by omega] at this
        · rwa [show i + (K + 1) = i + 1 + K by omega] at hK
      simp [unregister_loop, h0, hrec, retryPattern]

/-- When the probe reports the non-target value exactly `K` times and
then the target value, the poll loop produces exactly the alternating
poll/sleep pattern ending in the successful poll. -/
theorem wait_loop_pattern (to_be_available : Bool) (avail : Nat → Bool) :
    ∀ K i fuel, (∀ j, j < K → avail (i + j) = !to_be_available) →
      avail (i + K) = to_be_available → K < fuel →
      wait_loop to_be_available avail i fuel =
        some (pollPattern to_be_available K) := by
  intro K
  induction K with
  | zero =>
    intro i fuel _ hK hfuel
    cases fuel with
    | zero => omega
    | succ fuel =>
      have h0 : avail i = to_be_available := by simpa using hK
      simp [wait_loop, h0, pollPattern]
  | succ K ih =>
    intro i fuel hlt hK hfuel
    cases fuel with
    | zero => omega
    | succ fuel =>
      have h0 : avail i = !to_be_available := by
        simpa using hlt 0 (Nat.succ_pos K)
      have hne : ¬ (avail i = to_be_available) := by
        rw [h0]; cases to_be_available <;> simp
      have hrec : wait_loop to_be_available avail (i + 1) fuel =
          some (pollPattern to_be_available K) := by
        refine ih (i + 1) fuel (fun j hj => ?_) ?_ (by omega)
        · have := hlt (j + 1) (by omega)
          rwa [show i + (j + 1) = i + 1 + j by omega] at this
        · rwa [show i + (K + 1) = i + 1 + K by omega] at hK
      simp [wait_loop, hne, hrec, pollPattern, h0]

/-- Counting the attempts in a retry pattern: one per failure plus the
final success. -/
theorem retryPattern_count_attempts (attempt : Bool → Event) (p : Event → Bool)
    (hT : p (attempt true) = true) (hF : p (attempt false) = true)
    (hS : p (Event.sleep RETRY_TIMEOUT) = false) :
    ∀ K, (retryPattern attempt K).countP p = K + 1 := by
  intro K
  induction K with
  | zero => simp [retryPattern, List.countP_cons, hT]
  | succ K ih => simp [retryPattern, List.countP_cons, hF, hS, ih]

/-- Counting the sleeps in a retry pattern: one per failure. -/
theorem retryPattern_count_sleeps (attempt : Bool → Event) (p : Event → Bool)
    (hT : p (attempt true) = false) (hF : p (attempt false) = false)
    (hS : p (Event.sleep RETRY_TIMEOUT) = true) :
    ∀ K, (retryPattern attempt K).countP p = K := by
  intro K
  induction K with
  | zero => simp [retryPattern, List.countP_cons, hT]
  | succ K ih => simp [retryPattern, List.countP_cons, hF, hS, ih]

/-- Every event of a retry pattern is an attempt or a fixed-interval
sleep. -/
theorem retryPattern_mem (attempt : Bool → Event) :
    ∀ K, ∀ e ∈ retryPattern attempt K,
      e = attempt true ∨ e = attempt false ∨
        e = Event.sleep RETRY_TIMEOUT := by
  intro K
  induction K with
  | zero =>
    intro e he
    rcases List.mem_cons.mp he with rfl | he
    · exact Or.inl rfl
    · simp at he
  | succ K ih =>
    intro e he
    rcases List.mem_cons.mp he with rfl | he
    · exact Or.inr (Or.inl rfl)
    · rcases List.mem_cons.mp he with rfl | he
      · exact Or.inr (Or.inr rfl)
      · exact ih e he

end TestService

namespace TestService

/-- Structure of a successful `wait_service` trace: the proxy build,
then non-target polls and sleeps, then the poll reporting the target
value. -/
theorem wait_service_decomp (service : Service) (to_be_available : Bool)
    (avail : Nat → Bool) (fuel : Nat) (tr : List Event) :
    wait_service service to_be_available avail fuel = some tr →
    ∃ pre, tr = Event.buildProxy service.meta.domain service.meta.inst
        service.meta.connection :: pre ++
        [Event.isAvailable to_be_available] ∧
      ∀ e ∈ pre, e = Event.isAvailable (!to_be_available) ∨
        e = Event.sleep RETRY_TIMEOUT := by
  intro h
  rw [wait_service] at h
  cases hloop : wait_loop to_be_available avail 0 fuel with
  | none => rw [hloop] at h; cases h
  | some tr0 =>
    rw [hloop] at h
    simp only [Option.some.injEq] at h
    obtain ⟨pre, hpre, hmem⟩ :=
      wait_loop_decomp to_be_available avail fuel 0 tr0 hloop
    exact ⟨pre, by rw [← h, hpre]; simp, hmem⟩

/-- A completed `launch_test_service` from the Stopped state is a
successful registration followed by a successful availability wait,
and it stores the freshly created service. -/
theorem launch_none_decomp (fh : Nat) (ro ao : Nat → Bool) (fuel : Nat)
    (st' : Option Service) (tr : List Event) :
    launch_test_service none fh ro ao fuel = some (st', tr) →
    ∃ regTr waitTr,
      register_service (create_service fh) ro fuel = some regTr ∧
      wait_service (create_service fh) true ao fuel = some waitTr ∧
      st' = some (create_service fh) ∧ tr = regTr ++ waitTr := by
  intro h
  simp only [launch_test_service] at h
  cases hreg : register_service (create_service fh) ro fuel with
  | none => rw [hreg] at h; cases h
  | some regTr =>
    rw [hreg] at h
    cases hwait : wait_service (create_service fh) true ao fuel with
    | none => rw [hwait] at h; cases h
    | some waitTr =>
      rw [hwait] at h
      simp only [Option.some.injEq, Prod.mk.injEq] at h
      exact ⟨regTr, waitTr, rfl, rfl, h.1.symm, h.2.symm⟩

/-- A completed `terminate_test_service` from the Running state is a
successful unregistration followed by a successful unavailability
wait, and it empties the running-service slot. -/
theorem terminate_some_decomp (s : Service) (uo ao : Nat → Bool) (fuel : Nat)
    (st' : Option Service) (tr : List Event) :
    terminate_test_service (some s) uo ao fuel = some (st', tr) →
    ∃ unregTr waitTr,
      unregister_service s uo fuel = some unregTr ∧
      wait_service s false ao fuel = some waitTr ∧
      st' = none ∧ tr = unregTr ++ waitTr := by
  intro h
  simp only [terminate_test_service] at h
  cases hunreg : unregister_service s uo fuel with
  | none => rw [hunreg] at h; cases h
  | some unregTr =>
    rw [hunreg] at h
    cases hwait : wait_service s false ao fuel with
    | none => rw [hwait] at h; cases h
    | some waitTr =>
      rw [hwait] at h
      simp only [Option.some.injEq, Prod.mk.injEq] at h
      exact ⟨unregTr, waitTr, rfl, rfl, h.1.symm, h.2.symm⟩

/-- A register trace holds no unregistration calls. -/
theorem register_service_count_unregister (service : Service)
    (results : Nat → Bool) (fuel : Nat) (tr : List Event)
    (h : register_service service results fuel = some tr) :
    tr.countP Event.isUnregisterCall = 0 := by
  obtain ⟨pre, hpre, hmem⟩ :=
    register_loop_decomp service results fuel 0 tr h
  subst hpre
  refine List.countP_eq_zero.mpr ?_
  intro e he
  rcases List.mem_append.mp he with he | he
  · rcases hmem e he with rfl | rfl <;>
      simp [registerAttempt, Event.isUnregisterCall]
  · rcases List.mem_singleton.mp he with rfl
    simp [registerAttempt, Event.isUnregisterCall]

/-- An unregister trace holds no registration calls. -/
theorem unregister_service_count_register (service : Service)
    (results : Nat → Bool) (fuel : Nat) (tr : List Event)
    (h : unregister_service service results fuel = some tr) :
    tr.countP Event.isRegisterCall = 0 := by
  obtain ⟨pre, hpre, hmem⟩ :=
    unregister_loop_decomp service results fuel 0 tr h
  subst hpre
  refine List.countP_eq_zero.mpr ?_
  intro e he
  rcases List.mem_append.mp he with he | he
  · rcases hmem e he with rfl | rfl <;>
      simp [unregisterAttempt, Event.isRegisterCall]
  · rcases List.mem_singleton.mp he with rfl
    simp [unregisterAttempt, Event.isRegisterCall]

/-- A wait trace holds neither registration nor unregistration calls. -/
theorem wait_service_count_reg_unreg (service : Service)
    (to_be_available : Bool) (avail : Nat → Bool) (fuel : Nat)
    (tr : List Event)
    (h : wait_service service to_be_available avail fuel = some tr) :
    tr.countP Event.isRegisterCall = 0 ∧
      tr.countP Event.isUnregisterCall = 0 := by
  obtain ⟨pre, hpre, hmem⟩ :=
    wait_service_decomp service to_be_available avail fuel tr h
  subst hpre
  constructor <;>
  · refine List.countP_eq_zero.mpr ?_
    intro e he
    rcases List.mem_cons.mp he with rfl | he
    · simp [Event.isRegisterCall, Event.isUnregisterCall]
    · rcases List.mem_append.mp he with he | he
      · rcases hmem e he with rfl | rfl <;>
          simp [Event.isRegisterCall, Event.isUnregisterCall]
      · rcases List.mem_singleton.mp he with rfl
        simp [Event.isRegisterCall, Event.isUnregisterCall]

end TestService

namespace TestService

/-- C1: in every reachable manager state the running-service slot is
occupied exactly when the abstracted lifecycle state is Running, and no
completed launch or terminate step issues a registerService call from
the Running state or an unregisterService call from the Stopped state
(a launch from Stopped issues no unregistration and a terminate from
Running issues no registration, while the no-op branches issue nothing
at all). -/
theorem C1_slot_iff_running_and_call_discipline :
    ∀ st, Reachable st →
      ((lifecycleState st = LifecycleState.Running ↔ ∃ s, st = some s) ∧
       (∀ fh ro ao fuel st' tr,
          launch_test_service st fh ro ao fuel = some (st', tr) →
          lifecycleState st = LifecycleState.Running →
          st' = st ∧ tr.countP Event.isRegisterCall = 0) ∧
       (∀ fh ro ao fuel st' tr,
          launch_test_service st fh ro ao fuel = some (st', tr) →
          lifecycleState st = LifecycleState.Stopped →
          tr.countP Event.isUnregisterCall = 0) ∧
       (∀ uo ao fuel st' tr,
          terminate_test_service st uo ao fuel = some (st', tr) →
          lifecycleState st = LifecycleState.Stopped →
          st' = st ∧ tr.countP Event.isUnregisterCall = 0) ∧
       (∀ uo ao fuel st' tr,
          terminate_test_service st uo ao fuel = some (st', tr) →
          lifecycleState st = LifecycleState.Running →
          tr.countP Event.isRegisterCall = 0)) := by
  intro st _
  cases st with
  | none =>
    refine ⟨by simp [lifecycleState], ?_, ?_, ?_, ?_⟩
    · intro fh ro ao fuel st' tr _ hrun
      simp [lifecycleState] at hrun
    · intro fh ro ao fuel st' tr h _
      obtain ⟨regTr, waitTr, hreg, hwait, _, htr⟩ :=
        launch_none_decomp fh ro ao fuel st' tr h
      subst htr
      rw [List.countP_append,
        register_service_count_unregister _ _ _ _ hreg,
        (wait_service_count_reg_unreg _ _ _ _ _ hwait).2]
    · intro uo ao fuel st' tr h _
      simp only [terminate_test_service, Option.some.injEq,
        Prod.mk.injEq] at h
      exact ⟨h.1.symm, by rw [← h.2]; rfl⟩
    · intro uo ao fuel st' tr _ hrun
      simp [lifecycleState] at hrun
  | some s =>
    refine ⟨by simp [lifecycleState], ?_, ?_, ?_, ?_⟩
    · intro fh ro ao fuel st' tr h _
      simp only [launch_test_service, Option.some.injEq,
        Prod.mk.injEq] at h
      exact ⟨h.1.symm, by rw [← h.2]; rfl⟩
    · intro fh ro ao fuel st' tr _ hstop
      simp [lifecycleState] at hstop
    · intro uo ao fuel st' tr _ hstop
      simp [lifecycleState] at hstop
    · intro uo ao fuel st' tr h _
      obtain ⟨unregTr, waitTr, hunreg, hwait, _, htr⟩ :=
        terminate_some_decomp s uo ao fuel st' tr h
      subst htr
      rw [List.countP_append,
        unregister_service_count_register _ _ _ _ hunreg,
        (wait_service_count_reg_unreg _ _ _ _ _ hwait).1]

/-- Witness for C1, at the initial (Stopped) state and a terminate
call. -/
theorem C1_slot_iff_running_and_call_discipline_witness :
    (none : Option Service) = none ∧
      ([] : List Event).countP Event.isUnregisterCall = 0 :=
  (C1_slot_iff_running_and_call_discipline none Reachable.init).2.2.2.1
    (fun _ => true) (fun _ => true) 1 none [] rfl rfl

/-- C2: launching while already Running returns with the state and
handle unchanged and an empty event trace, and terminating while
Stopped likewise; consequently two sequential launches (the first one
accepted by the runtime at once) end Running having issued exactly one
registration call. -/
theorem C2_idempotence :
    (∀ s fh ro ao fuel,
       launch_test_service (some s) fh ro ao fuel = some (some s, [])) ∧
    (∀ uo ao fuel,
       terminate_test_service none uo ao fuel = some (none, [])) ∧
    (∀ fh ro ao fuel, ro 0 = true →
      ∀ fh' ro' ao' fuel' st₁ tr₁ st₂ tr₂,
        launch_test_service none fh ro ao fuel = some (st₁, tr₁) →
        launch_test_service st₁ fh' ro' ao' fuel' = some (st₂, tr₂) →
        lifecycleState st₂ = LifecycleState.Running ∧ st₂ = st₁ ∧
          tr₂ = [] ∧
          (tr₁ ++ tr₂).countP Event.isRegisterCall = 1) := by
  refine ⟨fun s fh ro ao fuel => rfl, fun uo ao fuel => rfl, ?_⟩
  intro fh ro ao fuel hro fh' ro' ao' fuel' st₁ tr₁ st₂ tr₂ h₁ h₂
  obtain ⟨regTr, waitTr, hreg, hwait, hst₁, htr₁⟩ :=
    launch_none_decomp fh ro ao fuel st₁ tr₁ h₁
  have hregTr : regTr = [registerAttempt (create_service fh) true] := by
    cases fuel with
    | zero => simp [register_service, register_loop] at hreg
    | succ fuel =>
      simp only [register_service, register_loop, hro, if_true,
        Option.some.injEq] at hreg
      exact hreg.symm
  subst hst₁ htr₁ hregTr
  simp only [launch_test_service, Option.some.injEq, Prod.mk.injEq] at h₂
  obtain ⟨hst₂, htr₂⟩ := h₂
  subst hst₂
  refine ⟨rfl, rfl, htr₂.symm, ?_⟩
  rw [← htr₂]
  rw [List.append_nil, List.countP_append,
    (wait_service_count_reg_unreg _ _ _ _ _ hwait).1]
  simp [registerAttempt, Event.isRegisterCall, List.countP_cons]

/-- Witness for C2: two sequential launches with an immediately
accepting runtime. -/
theorem C2_idempotence_witness :
    lifecycleState (some (create_service 0)) = LifecycleState.Running ∧
    (some (create_service 0) : Option Service) = some (create_service 0) ∧
    ([] : List Event) = [] ∧
    (([registerAttempt (create_service 0) true,
       Event.buildProxy SERVICE_DOMAIN SERVICE_INSTANCE SERVICE_CONNECTION,
       Event.isAvailable true] ++ ([] : List Event)).countP
        Event.isRegisterCall = 1) :=
  C2_idempotence.2.2 0 (fun _ => true) (fun _ => true) 1 rfl
    1 (fun _ => false) (fun _ => false) 0
    (some (create_service 0))
    [registerAttempt (create_service 0) true,
     Event.buildProxy SERVICE_DOMAIN SERVICE_INSTANCE SERVICE_CONNECTION,
     Event.isAvailable true]
    (some (create_service 0)) [] rfl rfl

end TestService

namespace TestService

/-- C3: when the runtime operation fails exactly `K` times and then
succeeds, the register (resp. unregister) retry loop surfaces no
failure and produces exactly `K + 1` attempts with exactly one
fixed-interval sleep between consecutive attempts (`K` sleeps in
total); a launch whose registration behaves this way then proceeds to
the availability wait. -/
theorem C3_retry_convergence :
    ∀ K (service : Service) (results : Nat → Bool) fuel,
      (∀ i, i < K → results i = false) → results K = true → K < fuel →
      (register_service service results fuel =
         some (retryPattern (registerAttempt service) K) ∧
       unregister_service service results fuel =
         some (retryPattern (unregisterAttempt service) K) ∧
       (retryPattern (registerAttempt service) K).countP
         Event.isRegisterCall = K + 1 ∧
       (retryPattern (registerAttempt service) K).countP
         Event.isSleepEvent = K ∧
       (retryPattern (unregisterAttempt service) K).countP
         Event.isUnregisterCall = K + 1 ∧
       (retryPattern (unregisterAttempt service) K).countP
         Event.isSleepEvent = K ∧
       (∀ e ∈ retryPattern (registerAttempt service) K,
          Event.isSleepEvent e = true → e = Event.sleep RETRY_TIMEOUT) ∧
       (∀ fh ao waitTr,
          wait_service (create_service fh) true ao fuel = some waitTr →
          launch_test_service none fh results ao fuel =
            some (some (create_service fh),
              retryPattern (registerAttempt (create_service fh)) K ++
                waitTr))) := by
  intro K service results fuel hfail hsucc hfuel
  have hfail0 : ∀ j, j < K → results (0 + j) = false := by
    intro j hj; simpa using hfail j hj
  have hsucc0 : results (0 + K) = true := by simpa using hsucc
  refine ⟨register_loop_pattern service results K 0 fuel hfail0 hsucc0 hfuel,
    unregister_loop_pattern service results K 0 fuel hfail0 hsucc0 hfuel,
    retryPattern_count_attempts _ _ rfl rfl rfl K,
    retryPattern_count_sleeps _ _ rfl rfl rfl K,
    retryPattern_count_attempts _ _ rfl rfl rfl K,
    retryPattern_count_sleeps _ _ rfl rfl rfl K,
    ?_, ?_⟩
  · intro e he hsleep
    rcases retryPattern_mem _ K e he with rfl | rfl | rfl
    · simp [registerAttempt, Event.isSleepEvent] at hsleep
    · simp [registerAttempt, Event.isSleepEvent] at hsleep
    · rfl
  · intro fh ao waitTr hwait
    have hreg := register_loop_pattern (create_service fh) results K 0 fuel
      hfail0 hsucc0 hfuel
    simp only [launch_test_service]
    rw [show register_service (create_service fh) results fuel =
          some (retryPattern (registerAttempt (create_service fh)) K)
        from hreg, hwait]

/-- Witness for C3: two failures, then success. -/
theorem C3_retry_convergence_witness :
    register_service (create_service 5) (fun i => decide (2 ≤ i)) 3 =
      some (retryPattern (registerAttempt (create_service 5)) 2) :=
  (C3_retry_convergence 2 (create_service 5) (fun i => decide (2 ≤ i)) 3
    (by decide) (by decide) (by decide)).1

/-- C4: a completed launch from the Stopped state stores the new
service (state Running) and its trace ends with the first poll that
reports available: after the registration part comes the proxy build,
then only unavailable polls and sleeps, and the very last event of the
whole trace is the available poll — no sleep follows it. -/
theorem C4_availability_gating :
    ∀ fh ro ao fuel st' tr,
      launch_test_service none fh ro ao fuel = some (st', tr) →
      st' = some (create_service fh) ∧
      (∃ regTr pre,
        register_service (create_service fh) ro fuel = some regTr ∧
        tr = regTr ++
          Event.buildProxy SERVICE_DOMAIN SERVICE_INSTANCE
            SERVICE_CONNECTION ::
          pre ++ [Event.isAvailable true] ∧
        (∀ e ∈ pre, e = Event.isAvailable false ∨
          e = Event.sleep RETRY_TIMEOUT)) ∧
      tr.getLast? = some (Event.isAvailable true) := by
  intro fh ro ao fuel st' tr h
  obtain ⟨regTr, waitTr, hreg, hwait, hst', htr⟩ :=
    launch_none_decomp fh ro ao fuel st' tr h
  obtain ⟨pre, hpre, hmem⟩ :=
    wait_service_decomp (create_service fh) true ao fuel waitTr hwait
  have hmem' : ∀ e ∈ pre, e = Event.isAvailable false ∨
      e = Event.sleep RETRY_TIMEOUT := by
    intro e he
    rcases hmem e he with rfl | rfl
    · exact Or.inl rfl
    · exact Or.inr rfl
  refine ⟨hst', ⟨regTr, pre, hreg, ?_, hmem'⟩, ?_⟩
  · rw [htr, hpre]; simp [create_service]
  · have : tr = (regTr ++ Event.buildProxy SERVICE_DOMAIN SERVICE_INSTANCE
        SERVICE_CONNECTION :: pre) ++ [Event.isAvailable true] := by
      rw [htr, hpre]; simp [create_service]
    rw [this]
    exact List.getLast?_concat _

/-- Witness for C4: an immediately accepting runtime and probe. -/
theorem C4_availability_gating_witness :
    (some (create_service 3) : Option Service) = some (create_service 3) ∧
    ([registerAttempt (create_service 3) true,
      Event.buildProxy SERVICE_DOMAIN SERVICE_INSTANCE SERVICE_CONNECTION,
      Event.isAvailable true].getLast? = some (Event.isAvailable true)) :=
  ⟨(C4_availability_gating 3 (fun _ => true) (fun _ => true) 1
      (some (create_service 3))
      [registerAttempt (create_service 3) true,
       Event.buildProxy SERVICE_DOMAIN SERVICE_INSTANCE SERVICE_CONNECTION,
       Event.isAvailable true] rfl).1,
   (C4_availability_gating 3 (fun _ => true) (fun _ => true) 1
      (some (create_service 3))
      [registerAttempt (create_service 3) true,
       Event.buildProxy SERVICE_DOMAIN SERVICE_INSTANCE SERVICE_CONNECTION,
       Event.isAvailable true] rfl).2.2⟩

/-- C5: terminate from Running performs, in order, the retried
unregistration on the current handle's identity (last attempt
successful), then the poll loop down to unavailable, and only then
clears the slot: the returned state is Stopped with the handle
dropped. -/
theorem C5_terminate_order :
    ∀ s uo ao fuel st' tr unregTr waitTr,
      terminate_test_service (some s) uo ao fuel = some (st', tr) →
      unregister_service s uo fuel = some unregTr →
      wait_service s false ao fuel = some waitTr →
      st' = none ∧ tr = unregTr ++ waitTr ∧
      unregTr.getLast? = some (unregisterAttempt s true) ∧
      waitTr.head? = some (Event.buildProxy s.meta.domain s.meta.inst
        s.meta.connection) ∧
      waitTr.getLast? = some (Event.isAvailable false) ∧
      (∀ e ∈ unregTr, e = unregisterAttempt s true ∨
        e = unregisterAttempt s false ∨ e = Event.sleep RETRY_TIMEOUT) := by
  intro s uo ao fuel st' tr unregTr waitTr h hunreg hwait
  obtain ⟨unregTr', waitTr', hunreg', hwait', hst', htr⟩ :=
    terminate_some_decomp s uo ao fuel st' tr h
  rw [hunreg] at hunreg'
  rw [hwait] at hwait'
  obtain rfl : unregTr = unregTr' := by
    simpa using hunreg'
  obtain rfl : waitTr = waitTr' := by
    simpa using hwait'
  obtain ⟨fpre, hfpre, hfmem⟩ :=
    unregister_loop_decomp s uo fuel 0 unregTr hunreg
  obtain ⟨pre, hpre, hmem⟩ := wait_service_decomp s false ao fuel waitTr hwait
  refine ⟨hst', htr, ?_, ?_, ?_, ?_⟩
  · rw [hfpre]; exact List.getLast?_concat _
  · rw [hpre]; rfl
  · have : waitTr = (Event.buildProxy s.meta.domain s.meta.inst
        s.meta.connection :: pre) ++ [Event.isAvailable false] := by
      rw [hpre]
    rw [this]
    exact List.getLast?_concat _
  · intro e he
    rw [hfpre] at he
    rcases List.mem_append.mp he with he | he
    · rcases hfmem e he with rfl | rfl
      · exact Or.inr (Or.inl rfl)
      · exact Or.inr (Or.inr rfl)
    · rcases List.mem_singleton.mp he with rfl
      exact Or.inl rfl

/-- Witness for C5: an immediately accepting runtime and probe. -/
theorem C5_terminate_order_witness :
    (none : Option Service) = none ∧
    ([unregisterAttempt (create_service 2) true] ++
       [Event.buildProxy SERVICE_DOMAIN SERVICE_INSTANCE SERVICE_CONNECTION,
        Event.isAvailable false] =
     [unregisterAttempt (create_service 2) true] ++
       [Event.buildProxy SERVICE_DOMAIN SERVICE_INSTANCE SERVICE_CONNECTION,
        Event.isAvailable false]) ∧
    ([unregisterAttempt (create_service 2) true].getLast? =
      some (unregisterAttempt (create_service 2) true)) := by
  have h := C5_terminate_order (create_service 2) (fun _ => true)
    (fun _ => false) 1 none
    ([unregisterAttempt (create_service 2) true] ++
      [Event.buildProxy SERVICE_DOMAIN SERVICE_INSTANCE SERVICE_CONNECTION,
       Event.isAvailable false])
    [unregisterAttempt (create_service 2) true]
    [Event.buildProxy SERVICE_DOMAIN SERVICE_INSTANCE SERVICE_CONNECTION,
     Event.isAvailable false] rfl rfl rfl
  exact ⟨h.1, rfl, h.2.2.1⟩

end TestService

namespace TestService

/-- C7: every runtime call in a transition routes the ServiceIdentity
fields exactly as the destructurings in manager.hpp prescribe:
registration gets domain+instance+connection plus the stub handle,
unregistration gets domain+interface+instance, and the availability
proxy is built from domain+instance+connection — and no other runtime
calls occur in the respective loops. -/
theorem C7_identity_routing :
    ∀ (s : Service) (results avail : Nat → Bool) (fuel : Nat)
      (tr : List Event) (target : Bool),
      (register_service s results fuel = some tr →
        ∀ e ∈ tr,
          (e.isRegisterCall = true → e.routesRegisterIdentity s = true) ∧
          (e.isRegisterCall = true ∨ e.isSleepEvent = true)) ∧
      (unregister_service s results fuel = some tr →
        ∀ e ∈ tr,
          (e.isUnregisterCall = true → e.routesUnregisterIdentity s = true) ∧
          (e.isUnregisterCall = true ∨ e.isSleepEvent = true)) ∧
      (wait_service s target avail fuel = some tr →
        ∀ e ∈ tr,
          (e.isProxyBuild = true → e.routesProxyIdentity s = true) ∧
          (e.isProxyBuild = true ∨ e.isAvailPoll = true ∨
            e.isSleepEvent = true)) := by
  intro s results avail fuel tr target
  refine ⟨?_, ?_, ?_⟩
  · intro h e he
    obtain ⟨pre, hpre, hmem⟩ := register_loop_decomp s results fuel 0 tr h
    subst hpre
    have he' : e = registerAttempt s true ∨ e = registerAttempt s false ∨
        e = Event.sleep RETRY_TIMEOUT := by
      rcases List.mem_append.mp he with he | he
      · rcases hmem e he with rfl | rfl
        · exact Or.inr (Or.inl rfl)
        · exact Or.inr (Or.inr rfl)
      · rcases List.mem_singleton.mp he with rfl
        exact Or.inl rfl
    rcases he' with rfl | rfl | rfl <;>
      simp [registerAttempt, Event.isRegisterCall, Event.isSleepEvent,
        Event.routesRegisterIdentity]
  · intro h e he
    obtain ⟨pre, hpre, hmem⟩ := unregister_loop_decomp s results fuel 0 tr h
    subst hpre
    have he' : e = unregisterAttempt s true ∨
        e = unregisterAttempt s false ∨
        e = Event.sleep RETRY_TIMEOUT := by
      rcases List.mem_append.mp he with he | he
      · rcases hmem e he with rfl | rfl
        · exact Or.inr (Or.inl rfl)
        · exact Or.inr (Or.inr rfl)
      · rcases List.mem_singleton.mp he with rfl
        exact Or.inl rfl
    rcases he' with rfl | rfl | rfl <;>
      simp [unregisterAttempt, Event.isUnregisterCall, Event.isSleepEvent,
        Event.routesUnregisterIdentity]
  · intro h e he
    obtain ⟨pre, hpre, hmem⟩ := wait_service_decomp s target avail fuel tr h
    subst hpre
    have he' : e = Event.buildProxy s.meta.domain s.meta.inst
        s.meta.connection ∨
        e = Event.isAvailable (!target) ∨ e = Event.isAvailable target ∨
        e = Event.sleep RETRY_TIMEOUT := by
      rcases List.mem_cons.mp he with rfl | he
      · exact Or.inl rfl
      · rcases List.mem_append.mp he with he | he
        · rcases hmem e he with rfl | rfl
          · exact Or.inr (Or.inl rfl)
          · exact Or.inr (Or.inr (Or.inr rfl))
        · rcases List.mem_singleton.mp he with rfl
          exact Or.inr (Or.inr (Or.inl rfl))
    rcases he' with rfl | rfl | rfl | rfl <;>
      simp [Event.isProxyBuild, Event.isAvailPoll, Event.isSleepEvent,
        Event.routesProxyIdentity]

/-- Witness for C7: the successful registration attempt routes the
identity fields correctly. -/
theorem C7_identity_routing_witness :
    Event.routesRegisterIdentity (registerAttempt (create_service 0) true)
      (create_service 0) = true :=
  ((C7_identity_routing (create_service 0) (fun _ => true) (fun _ => true) 1
      [registerAttempt (create_service 0) true] true).1 rfl
    (registerAttempt (create_service 0) true)
    (List.mem_singleton.mpr rfl)).1 rfl

/-- C10: in each of the three loops the runtime operation is attempted
before any sleep, so a first-attempt success (or an immediately
matching probe) completes the loop with exactly one runtime call and
zero sleeps. -/
theorem C10_no_initial_delay :
    ∀ (s : Service) (results avail : Nat → Bool) (fuel : Nat)
      (target : Bool),
      (results 0 = true →
        register_service s results (fuel + 1) =
          some [registerAttempt s true]) ∧
      (results 0 = true →
        unregister_service s results (fuel + 1) =
          some [unregisterAttempt s true]) ∧
      (avail 0 = target →
        wait_service s target avail (fuel + 1) =
          some [Event.buildProxy s.meta.domain s.meta.inst
                  s.meta.connection,
                Event.isAvailable target]) ∧
      [registerAttempt s true].countP Event.isSleepEvent = 0 ∧
      [registerAttempt s true].countP Event.isRegisterCall = 1 ∧
      [unregisterAttempt s true].countP Event.isSleepEvent = 0 ∧
      [unregisterAttempt s true].countP Event.isUnregisterCall = 1 ∧
      [Event.buildProxy s.meta.domain s.meta.inst s.meta.connection,
        Event.isAvailable target].countP Event.isSleepEvent = 0 ∧
      [Event.buildProxy s.meta.domain s.meta.inst s.meta.connection,
        Event.isAvailable target].countP Event.isAvailPoll = 1 := by
  intro s results avail fuel target
  refine ⟨?_, ?_, ?_, ?_, ?_, ?_, ?_, ?_, ?_⟩
  · intro h; simp [register_service, register_loop, h]
  · intro h; simp [unregister_service, unregister_loop, h]
  · intro h; simp [wait_service, wait_loop, h]
  · simp [List.countP_cons, registerAttempt, Event.isSleepEvent]
  · simp [List.countP_cons, registerAttempt, Event.isRegisterCall]
  · simp [List.countP_cons, unregisterAttempt, Event.isSleepEvent]
  · simp [List.countP_cons, unregisterAttempt, Event.isUnregisterCall]
  · simp [List.countP_cons, Event.isSleepEvent]
  · simp [List.countP_cons, Event.isAvailPoll, Event.isProxyBuild]

/-- Witness for C10: a first-attempt registration success. -/
theorem C10_no_initial_delay_witness :
    register_service (create_service 1) (fun _ => true) 1 =
      some [registerAttempt (create_service 1) true] :=
  (C10_no_initial_delay (create_service 1) (fun _ => true) (fun _ => true)
    0 true).1 rfl

/-- C8: every two-way EchoContract operation replies with its input
unchanged, for all inputs of its parameter type; the fire-and-forget
uint64 operation produces no reply and only logs its input. -/
theorem C8_echo_roundtrip :
    (∀ c flag, TestServiceStubImpl.test_bool c flag = flag) ∧
    (∀ c p, TestServiceStubImpl.test_int8 c p = p) ∧
    (∀ c p, TestServiceStubImpl.test_int16 c p = p) ∧
    (∀ c p, TestServiceStubImpl.test_int32 c p = p) ∧
    (∀ c p, TestServiceStubImpl.test_int64 c p = p) ∧
    (∀ c p, TestServiceStubImpl.test_uint8 c p = p) ∧
    (∀ c p, TestServiceStubImpl.test_uint16 c p = p) ∧
    (∀ c p, TestServiceStubImpl.test_uint32 c p = p) ∧
    (∀ c p, TestServiceStubImpl.test_uint64 c p = p) ∧
    (∀ c p, TestServiceStubImpl.test_double c p = p) ∧
    (∀ c p, TestServiceStubImpl.test_float c p = p) ∧
    (∀ c r, TestServiceStubImpl.test_struct c r = r) ∧
    (∀ c p, TestServiceStubImpl.test_utf16le_dynamic_length_string c p = p) ∧
    (∀ c p, TestServiceStubImpl.test_utf16be_dynamic_length_string c p = p) ∧
    (∀ c p, TestServiceStubImpl.test_utf8_dynamic_length_string c p = p) ∧
    (∀ c p, TestServiceStubImpl.test_utf16le_fixed_length_string c p = p) ∧
    (∀ c p, TestServiceStubImpl.test_utf16be_fixed_length_string c p = p) ∧
    (∀ c p, TestServiceStubImpl.test_utf8_fixed_length_string c p = p) ∧
    (∀ c p, TestServiceStubImpl.test_fixed_length_array c p = p) ∧
    (∀ c p, TestServiceStubImpl.test_dynamic_length_1_byte_array c p = p) ∧
    (∀ c p, TestServiceStubImpl.test_dynamic_length_2_bytes_array c p = p) ∧
    (∀ c p, TestServiceStubImpl.test_dynamic_length_4_bytes_array c p = p) ∧
    (∀ c p, (TestServiceStubImpl.test_fire_and_forget_uint64 c p).reply =
      none) ∧
    (∀ c p, (TestServiceStubImpl.test_fire_and_forget_uint64 c p).logged =
      [p]) :=
  ⟨fun _ _ => rfl, fun _ _ => rfl, fun _ _ => rfl, fun _ _ => rfl,
   fun _ _ => rfl, fun _ _ => rfl, fun _ _ => rfl, fun _ _ => rfl,
   fun _ _ => rfl, fun _ _ => rfl, fun _ _ => rfl, fun _ _ => rfl,
   fun _ _ => rfl, fun _ _ => rfl, fun _ _ => rfl, fun _ _ => rfl,
   fun _ _ => rfl, fun _ _ => rfl, fun _ _ => rfl, fun _ _ => rfl,
   fun _ _ => rfl, fun _ _ => rfl, fun _ _ => rfl, fun _ _ => rfl⟩

end TestService

namespace TestService

/-- A list is at least as long as any list that starts it. -/
theorem isPrefixOf_length_le :
    ∀ (pat l : List Char), pat.isPrefixOf l = true →
      pat.length ≤ l.length := by
  intro pat
  induction pat with
  | nil => intro l _; simp
  | cons a pat ih =>
    intro l h
    cases l with
    | nil => simp [List.isPrefixOf] at h
    | cons b l =>
      simp only [List.isPrefixOf, Bool.and_eq_true] at h
      have := ih l h.2
      simp only [List.length_cons]
      omega

/-- A found occurrence lies fully inside the string. -/
theorem findSubstr_bound {s pat : List Char} {i : Nat}
    (h : findSubstr s pat = some i) (hpat : 0 < pat.length) :
    i + pat.length ≤ s.length := by
  rw [findSubstr] at h
  have hp : pat.isPrefixOf (s.drop i) = true := by
    simpa using List.find?_some h
  have hlen := isPrefixOf_length_le pat (s.drop i) hp
  rw [List.length_drop] at hlen
  omega

/-- A right-found occurrence lies fully inside the string. -/
theorem rfindSubstr_bound {s pat : List Char} {i : Nat}
    (h : rfindSubstr s pat = some i) (hpat : 0 < pat.length) :
    i + pat.length ≤ s.length := by
  rw [rfindSubstr] at h
  have hp : pat.isPrefixOf (s.drop i) = true := by
    simpa using List.find?_some h
  have hlen := isPrefixOf_length_le pat (s.drop i) hp
  rw [List.length_drop] at hlen
  omega

/-- C9: for an input that contains `::`, has at least one space before
the first `::` (last such space at index `j`), and whose last `(` (at
index `p`) lies after the first `::` (at index `c`), `method_name`
returns the substring from just after that space up to but excluding
that `(`, with `()` appended. -/
theorem C9_method_name_shape :
    ∀ (s : List Char) (c j p : Nat),
      s.length < npos →
      findSubstr s "::".toList = some c →
      rfindSubstr (s.take c) " ".toList = some j →
      rfindSubstr s "(".toList = some p →
      c < p →
      method_name s =
        (s.drop (j + 1)).take (p - (j + 1)) ++ "()".toList := by
  intro s c j p hlen hc hj hp hcp
  have hcb : c + 2 ≤ s.length := by
    have := findSubstr_bound hc (by decide)
    simpa using this
  have hjb : j + 1 ≤ (s.take c).length := by
    have := rfindSubstr_bound hj (by decide)
    simpa using this
  have hjc : j + 1 ≤ c := by
    rw [List.length_take] at hjb
    omega
  have hpb : p + 1 ≤ s.length := by
    have := rfindSubstr_bound hp (by decide)
    simpa using this
  have hmod1 : (j + 1) % (npos + 1) = j + 1 :=
    Nat.mod_eq_of_lt (by omega)
  have hmod2 : (p + (npos + 1) - (j + 1)) % (npos + 1) = p - (j + 1) := by
    have h2 : p + (npos + 1) - (j + 1) = (p - (j + 1)) + (npos + 1) := by
      omega
    rw [h2, Nat.add_mod_right]
    exact Nat.mod_eq_of_lt (by omega)
  simp only [method_name, cppFind, cppRfind, cppSubstr, hc, hj, hp,
    Option.getD_some, List.drop_zero, hmod1, hmod2]

/-- Witness for C9: the doc example from utils.hpp
(`__PRETTY_FUNCTION__` of a Manager method). -/
theorem C9_method_name_shape_witness :
    method_name "void test_service::Manager::launch_test_service()".toList =
      "test_service::Manager::launch_test_service()".toList := by
  have h := C9_method_name_shape
    "void test_service::Manager::launch_test_service()".toList 17 4 47
    (by decide) (by decide) (by decide) (by decide) (by decide)
  rw [h]
  decide

end TestService

namespace TestService

/-- One scheduler step preserves the mutex-serialization invariant. -/
theorem stepThread_inv (tA tB : List Event) (s : SysState) (t : Bool)
    (h : Inv tA tB s) : Inv tA tB (stepThread s t) := by
  obtain ⟨o, pA, pB, tr⟩ := s
  rcases h with ⟨ho, ha, hb, ht⟩ | ⟨pre, rest, hteq, ho, ha, hb, ht⟩ |
    ⟨ho, ha, hb, ht⟩ | ⟨pre, rest, hteq, ho, ha, hb, ht⟩ |
    ⟨ho, ha, hb, ht⟩ | ⟨pre, rest, hteq, ho, ha, hb, ht⟩ |
    ⟨ho, ha, hb, ht⟩ | ⟨pre, rest, hteq, ho, ha, hb, ht⟩ |
    ⟨ho, ha, hb, ht⟩ <;>
  dsimp only at ho ha hb ht <;>
  subst ho <;> subst ha <;> subst hb
  · -- both idle
    cases t
    · exact Or.inr (Or.inr (Or.inr (Or.inr (Or.inr (Or.inl
        ⟨[], tB, by simp, rfl, rfl, rfl, ht⟩)))))
    · exact Or.inr (Or.inl ⟨[], tA, by simp, rfl, rfl, rfl, ht⟩)
  · -- A inside its critical section, B idle
    cases t
    · exact Or.inr (Or.inl ⟨pre, rest, hteq, rfl, rfl, rfl, ht⟩)
    · cases rest with
      | nil =>
        exact Or.inr (Or.inr (Or.inl ⟨rfl, rfl, rfl,
          by show tr = tA; simp [ht, hteq]⟩))
      | cons e rest' =>
        exact Or.inr (Or.inl
          ⟨pre ++ [e], rest', by simp [hteq], rfl, rfl, rfl,
            by show tr ++ [e] = pre ++ [e]; simp [ht]⟩)
  · -- A done, B idle
    cases t
    · exact Or.inr (Or.inr (Or.inr (Or.inl
        ⟨[], tB, by simp, rfl, rfl, rfl,
          by show tr = tA ++ []; simp [ht]⟩)))
    · exact Or.inr (Or.inr (Or.inl ⟨rfl, rfl, rfl, ht⟩))
  · -- A done, B inside its critical section
    cases t
    · cases rest with
      | nil =>
        exact Or.inr (Or.inr (Or.inr (Or.inr (Or.inl
          ⟨rfl, rfl, rfl, by show tr = tA ++ tB; simp [ht, hteq]⟩))))
      | cons e rest' =>
        exact Or.inr (Or.inr (Or.inr (Or.inl
          ⟨pre ++ [e], rest', by simp [hteq], rfl, rfl, rfl,
            by show tr ++ [e] = tA ++ (pre ++ [e]); simp [ht]⟩)))
    · exact Or.inr (Or.inr (Or.inr (Or.inl
        ⟨pre, rest, hteq, rfl, rfl, rfl, ht⟩)))
  · -- both done, A first
    cases t
    · exact Or.inr (Or.inr (Or.inr (Or.inr (Or.inl ⟨rfl, rfl, rfl, ht⟩))))
    · exact Or.inr (Or.inr (Or.inr (Or.inr (Or.inl ⟨rfl, rfl, rfl, ht⟩))))
  · -- B inside its critical section, A idle
    cases t
    · cases rest with
      | nil =>
        exact Or.inr (Or.inr (Or.inr (Or.inr (Or.inr (Or.inr (Or.inl
          ⟨rfl, rfl, rfl, by show tr = tB; simp [ht, hteq]⟩))))))
      | cons e rest' =>
        exact Or.inr (Or.inr (Or.inr (Or.inr (Or.inr (Or.inl
          ⟨pre ++ [e], rest', by simp [hteq], rfl, rfl, rfl,
            by show tr ++ [e] = pre ++ [e]; simp [ht]⟩)))))
    · exact Or.inr (Or.inr (Or.inr (Or.inr (Or.inr (Or.inl
        ⟨pre, rest, hteq, rfl, rfl, rfl, ht⟩)))))
  · -- B done, A idle
    cases t
    · exact Or.inr (Or.inr (Or.inr (Or.inr (Or.inr (Or.inr (Or.inl
        ⟨rfl, rfl, rfl, ht⟩))))))
    · exact Or.inr (Or.inr (Or.inr (Or.inr (Or.inr (Or.inr (Or.inr (Or.inl
        ⟨[], tA, by simp, rfl, rfl, rfl,
          by show tr = tB ++ []; simp [ht]⟩)))))))
  · -- B done, A inside its critical section
    cases t
    · exact Or.inr (Or.inr (Or.inr (Or.inr (Or.inr (Or.inr (Or.inr (Or.inl
        ⟨pre, rest, hteq, rfl, rfl, rfl, ht⟩)))))))
    · cases rest with
      | nil =>
        exact Or.inr (Or.inr (Or.inr (Or.inr (Or.inr (Or.inr (Or.inr
          (Or.inr ⟨rfl, rfl, rfl,
            by show tr = tB ++ tA; simp [ht, hteq]⟩)))))))
      | cons e rest' =>
        exact Or.inr (Or.inr (Or.inr (Or.inr (Or.inr (Or.inr (Or.inr (Or.inl
          ⟨pre ++ [e], rest', by simp [hteq], rfl, rfl, rfl,
            by show tr ++ [e] = tB ++ (pre ++ [e]); simp [ht]⟩)))))))
  · -- both done, B first
    cases t
    · exact Or.inr (Or.inr (Or.inr (Or.inr (Or.inr (Or.inr (Or.inr
        (Or.inr ⟨rfl, rfl, rfl, ht⟩)))))))
    · exact Or.inr (Or.inr (Or.inr (Or.inr (Or.inr (Or.inr (Or.inr
        (Or.inr ⟨rfl, rfl, rfl, ht⟩)))))))

/-- A whole scheduled run preserves the invariant. -/
theorem run_inv (tA tB : List Event) :
    ∀ (sched : List Bool) (s : SysState),
      Inv tA tB s → Inv tA tB (run s sched) := by
  intro sched
  induction sched with
  | nil => intro s h; exact h
  | cons t sched ih =>
    intro s h
    exact ih (stepThread s t) (stepThread_inv tA tB s t h)

/-- C6: the lib.cpp mutex is taken before the manager call and released
after it, so for any two concurrent lifecycle invocations (each a
launch or a terminate) and any schedule under which both complete, the
global event trace is one transition's full trace followed by the
other's: the transitions are serialized and no partial transition is
observable. -/
theorem C6_mutex_serializes :
    ∀ tA tB, IsTransitionTrace tA → IsTransitionTrace tB →
      ∀ sched : List Bool,
        (run (initState tA tB) sched).progA = [] →
        (run (initState tA tB) sched).progB = [] →
        (run (initState tA tB) sched).trace = tA ++ tB ∨
        (run (initState tA tB) sched).trace = tB ++ tA := by
  intro tA tB _ _ sched hA hB
  have hinv := run_inv tA tB sched (initState tA tB)
    (Or.inl ⟨rfl, rfl, rfl, rfl⟩)
  rcases hinv with ⟨ho, ha, hb, ht⟩ | ⟨pre, rest, hteq, ho, ha, hb, ht⟩ |
    ⟨ho, ha, hb, ht⟩ | ⟨pre, rest, hteq, ho, ha, hb, ht⟩ |
    ⟨ho, ha, hb, ht⟩ | ⟨pre, rest, hteq, ho, ha, hb, ht⟩ |
    ⟨ho, ha, hb, ht⟩ | ⟨pre, rest, hteq, ho, ha, hb, ht⟩ |
    ⟨ho, ha, hb, ht⟩
  · rw [ha] at hA; simp [callProg] at hA
  · rw [ha] at hA; simp at hA
  · rw [hb] at hB; simp [callProg] at hB
  · rw [hb] at hB; simp at hB
  · exact Or.inl ht
  · rw [hb] at hB; simp at hB
  · rw [ha] at hA; simp [callProg] at hA
  · rw [ha] at hA; simp at hA
  · exact Or.inr ht

/-- Witness for C6: a launch and a terminate, scheduled with the launch
thread first. -/
theorem C6_mutex_serializes_witness :
    (run (initState
        [registerAttempt (create_service 0) true,
         Event.buildProxy SERVICE_DOMAIN SERVICE_INSTANCE SERVICE_CONNECTION,
         Event.isAvailable true]
        [unregisterAttempt (create_service 0) true,
         Event.buildProxy SERVICE_DOMAIN SERVICE_INSTANCE SERVICE_CONNECTION,
         Event.isAvailable false])
      [true, true, true, true, true, false, false, false, false,
       false]).trace =
      [registerAttempt (create_service 0) true,
       Event.buildProxy SERVICE_DOMAIN SERVICE_INSTANCE SERVICE_CONNECTION,
       Event.isAvailable true] ++
      [unregisterAttempt (create_service 0) true,
       Event.buildProxy SERVICE_DOMAIN SERVICE_INSTANCE SERVICE_CONNECTION,
       Event.isAvailable false] ∨
    (run (initState
        [registerAttempt (create_service 0) true,
         Event.buildProxy SERVICE_DOMAIN SERVICE_INSTANCE SERVICE_CONNECTION,
         Event.isAvailable true]
        [unregisterAttempt (create_service 0) true,
         Event.buildProxy SERVICE_DOMAIN SERVICE_INSTANCE SERVICE_CONNECTION,
         Event.isAvailable false])
      [true, true, true, true, true, false, false, false, false,
       false]).trace =
      [unregisterAttempt (create_service 0) true,
       Event.buildProxy SERVICE_DOMAIN SERVICE_INSTANCE SERVICE_CONNECTION,
       Event.isAvailable false] ++
      [registerAttempt (create_service 0) true,
       Event.buildProxy SERVICE_DOMAIN SERVICE_INSTANCE SERVICE_CONNECTION,
       Event.isAvailable true] :=
  C6_mutex_serializes
    [registerAttempt (create_service 0) true,
     Event.buildProxy SERVICE_DOMAIN SERVICE_INSTANCE SERVICE_CONNECTION,
     Event.isAvailable true]
    [unregisterAttempt (create_service 0) true,
     Event.buildProxy SERVICE_DOMAIN SERVICE_INSTANCE SERVICE_CONNECTION,
     Event.isAvailable false]
    (Or.inl ⟨none, 0, fun _ => true, fun _ => true, 1,
      some (create_service 0), rfl⟩)
    (Or.inr ⟨some (create_service 0), fun _ => true, fun _ => false, 1,
      none, rfl⟩)
    [true, true, true, true, true, false, false, false, false, false]
    (by decide) (by decide)

end TestService
